import Mathlib

/-!
Verification development for the cv-gallery hand-tracking application.

The gesture classifier (`useHandTracking`), the frame assembler
(`processResults`) and the interaction controllers (gallery thumb
navigation, pinch drag, viewer move/dismiss and zoom/pan effects) are
embedded shallowly: coordinates and times are rationals, per-frame React
effects become explicit step functions on explicit state records, and the
callbacks they invoke (`onImageSelect`, `onClose`) become returned events.
The one square root in the code (the Euclidean pinch distance) is kept at
the theorem level as `Real.sqrt` of the rational squared distance, so all
definitions stay computable.
-/

/-- One MediaPipe hand landmark: normalized x, y (y grows downward) and
relative depth z. -/
structure Landmark where
  x : ℚ
  y : ℚ
  z : ℚ
deriving DecidableEq

/-- A detected hand: 21 landmarks at the fixed anatomical indices
(0 = wrist, 4 = thumb tip, 8 = index tip, ...). -/
abbrev Landmarks := Fin 21 → Landmark

/-- `const PINCH_THRESHOLD = 0.08`. -/
def PINCH_THRESHOLD : ℚ := 8/100

/-- `const THUMB_GESTURE_THRESHOLD = 0.06`. -/
def THUMB_GESTURE_THRESHOLD : ℚ := 6/100

/-- Squared Euclidean distance between thumb tip (`landmarks[4]`) and index
tip (`landmarks[8]`) in (x,y,z); the source computes
`distance = Math.sqrt(pinchDistSq)`. -/
def pinchDistSq (lm : Landmarks) : ℚ :=
  ((lm 4).x - (lm 8).x) ^ 2 + ((lm 4).y - (lm 8).y) ^ 2 + ((lm 4).z - (lm 8).z) ^ 2

/-- Result record of `calculatePinch` (the real-valued `strength`
`= max(0, 1 - distance / PINCH_THRESHOLD)` is stated at the theorem level,
as `distance` involves the square root). -/
structure PinchData where
  isPinching : Bool
  position : ℚ × ℚ
deriving DecidableEq

/-- `calculatePinch`: the source tests `distance < PINCH_THRESHOLD` with
`distance = sqrt (pinchDistSq lm)`; both sides being nonnegative this is
the computable test `pinchDistSq lm < PINCH_THRESHOLD ^ 2` (the equivalence
with the square-root form is proved in `calculatePinch_spec`). `position`
is the (x,y) midpoint of the two tips. -/
def calculatePinch (lm : Landmarks) : PinchData where
  isPinching := decide (pinchDistSq lm < PINCH_THRESHOLD ^ 2)
  position := (((lm 4).x + (lm 8).x) / 2, ((lm 4).y + (lm 8).y) / 2)

/-- `fingersCurled`: each non-thumb tip lies below (greater y) its own PIP
joint: index 8/6, middle 12/10, ring 16/14, pinky 20/18. -/
def fingersCurled (lm : Landmarks) : Bool :=
  decide ((lm 8).y > (lm 6).y) && decide ((lm 12).y > (lm 10).y) &&
  decide ((lm 16).y > (lm 14).y) && decide ((lm 20).y > (lm 18).y)

/-- `thumbExtended`: `|thumbTip.x - wrist.x| > 0.05 || |thumbTip.y - wrist.y| > 0.1`. -/
def thumbExtended (lm : Landmarks) : Bool :=
  decide (|(lm 4).x - (lm 0).x| > 5/100) || decide (|(lm 4).y - (lm 0).y| > 1/10)

/-- `thumbVertical = thumbCMC.y - thumbTip.y` (positive = thumb points up). -/
def thumbVertical (lm : Landmarks) : ℚ :=
  (lm 1).y - (lm 4).y

/-- Result record of `detectThumbGesture`. -/
structure ThumbGesture where
  isThumbsUp : Bool
  isThumbsDown : Bool
deriving DecidableEq

/-- `detectThumbGesture`: thumbs up / thumbs down from curled fingers,
extended thumb and the signed vertical thumb direction against
`THUMB_GESTURE_THRESHOLD`. -/
def detectThumbGesture (lm : Landmarks) : ThumbGesture where
  isThumbsUp :=
    fingersCurled lm && thumbExtended lm &&
      decide (thumbVertical lm > THUMB_GESTURE_THRESHOLD)
  isThumbsDown :=
    fingersCurled lm && thumbExtended lm &&
      decide (thumbVertical lm < -THUMB_GESTURE_THRESHOLD)

/-- `detectOpenPalm`: all four non-thumb tips above their PIPs and the
thumb tip horizontally displaced from its MCP (`landmarks[2]`) by > 0.05. -/
def detectOpenPalm (lm : Landmarks) : Bool :=
  (decide ((lm 8).y < (lm 6).y) && decide ((lm 12).y < (lm 10).y) &&
   decide ((lm 16).y < (lm 14).y) && decide ((lm 20).y < (lm 18).y)) &&
  decide (|(lm 4).x - (lm 2).x| > 5/100)

/-- The handedness label type (`'Left' | 'Right'`). -/
inductive Handedness where
  | Left
  | Right
deriving DecidableEq

/-- The per-hand signal published to the controllers (`HandData` in the
source; the real-valued `pinchStrength` field is consumed by no controller
and is treated at the theorem level). -/
structure HandData where
  landmarks : Landmarks
  handedness : Handedness
  isPinching : Bool
  pinchPosition : ℚ × ℚ
  isThumbsUp : Bool
  isThumbsDown : Bool
  isOpenPalm : Bool

/-- One entry of a detection callback: `results.multiHandLandmarks[i]`
paired with `results.multiHandedness[i].label`. -/
structure Detection where
  landmarks : Landmarks
  label : Handedness

/-- The body of the per-hand loop of `processResults`: flip the reported
label (`label === 'Left' ? 'Right' : 'Left'`) and run the classifier. -/
def buildHandData (d : Detection) : HandData where
  landmarks := d.landmarks
  handedness := if d.label = Handedness.Left then Handedness.Right else Handedness.Left
  isPinching := (calculatePinch d.landmarks).isPinching
  pinchPosition := (calculatePinch d.landmarks).position
  isThumbsUp := (detectThumbGesture d.landmarks).isThumbsUp
  isThumbsDown := (detectThumbGesture d.landmarks).isThumbsDown
  isOpenPalm := detectOpenPalm d.landmarks

/-- One iteration of the loop of `processResults`: assign the detection's
`HandData` to the side named by its flipped label, overwriting whatever
was there. First component = `leftHand`, second = `rightHand`. -/
def assignStep (acc : Option HandData × Option HandData) (d : Detection) :
    Option HandData × Option HandData :=
  let hd := buildHandData d
  if hd.handedness = Handedness.Left then (some hd, acc.2) else (acc.1, some hd)

/-- The loop of `processResults`: starting from `(null, null)`, fold
`assignStep` over the callback's detections in order. -/
def assignHands (dets : List Detection) : Option HandData × Option HandData :=
  dets.foldl assignStep (none, none)

/-- `processResults` with its throttle: `lastProcessTime` is the ref state,
`now` the callback's arrival time (`performance.now()`, ms). A callback
arriving less than 16 ms after the last processed one returns with no state
change and no publish; otherwise the ref is set to `now` and the assembled
`{leftHand, rightHand}` snapshot is published. -/
def processResults (lastProcessTime : ℚ) (now : ℚ) (dets : List Detection) :
    ℚ × Option (Option HandData × Option HandData) :=
  if now - lastProcessTime < 16 then (lastProcessTime, none)
  else (now, some (assignHands dets))

/-- A gallery entry (`GalleryImage` in the source). -/
structure GalleryImage where
  id : String
  src : String
  title : String
deriving DecidableEq

/-- The fixed gallery of the thumb-navigation `ImageGallery` definition
(23 entries, ids "1".."23"). -/
def GALLERY_IMAGES : List GalleryImage :=
  [⟨"1", "/gallery/image1.jpg", "codeforces"⟩,
   ⟨"2", "/gallery/image2.jpg", "kep.uz"⟩,
   ⟨"3", "/gallery/image3.jpg", "acmp.ru"⟩,
   ⟨"4", "/gallery/image4.jpg", "linux"⟩,
   ⟨"5", "/gallery/image5.jpg", "olympiad 1"⟩,
   ⟨"6", "/gallery/image6.jpg", "olympiad 2"⟩,
   ⟨"7", "/gallery/image7.jpg", "olympiad 3"⟩,
   ⟨"8", "/gallery/image8.jpg", "sarmolabs"⟩,
   ⟨"9", "/gallery/image9.jpg", "presTechAward"⟩,
   ⟨"10", "/gallery/image10.jpg", "peony.uz"⟩,
   ⟨"11", "/gallery/image11.gif", "hackathon"⟩,
   ⟨"12", "/gallery/image12.jpg", "github"⟩,
   ⟨"13", "/gallery/image13.jpg", "almaty"⟩,
   ⟨"14", "/gallery/image14.jpg", "marathons"⟩,
   ⟨"15", "/gallery/image15.jpg", "marathons"⟩,
   ⟨"16", "/gallery/image16.jpg", "marathons"⟩,
   ⟨"17", "/gallery/image17.jpg", "run"⟩,
   ⟨"18", "/gallery/image18.jpg", "run"⟩,
   ⟨"19", "/gallery/image19.jpg", "run"⟩,
   ⟨"20", "/gallery/image20.jpg", "run"⟩,
   ⟨"21", "/gallery/image21.jpg", "run"⟩,
   ⟨"22", "/gallery/image22.jpg", "run"⟩,
   ⟨"23", "/gallery/image23.jpg", "run"⟩]

/-- JavaScript `Array.prototype.findIndex` over image ids: the index of the
first entry with the given id, `-1` when absent. -/
def findIndex (images : List GalleryImage) (id : String) : Int :=
  match images.findIdx? (fun img => img.id == id) with
  | some i => (i : Int)
  | none => -1

/-- Visual scroll-feedback direction (`isThumbScrolling` values). -/
inductive ScrollDir where
  | up
  | down
deriving DecidableEq

/-- State owned by the thumb-navigation effect of the gallery: the
`lastThumbActionTime` ref (cooldown clock, ms), the scroll offset and the
visual feedback flag. `lastSelectedId` is a separate ref maintained by its
own effect and enters the step as an input. -/
structure NavState where
  lastThumbActionTime : ℤ
  scrollY : ℚ
  isThumbScrolling : Option ScrollDir
deriving DecidableEq

/-- `lastSelectedId` maintenance effect: whenever an image is selected its
id is remembered. -/
def updateLastSelectedId (lastSelectedId : Option String)
    (selectedImage : Option GalleryImage) : Option String :=
  match selectedImage with
  | some img => some img.id
  | none => lastSelectedId

/-- `currentIndex` resolution of the thumbs-up branch: start from `-1`,
use the selected image's index when one is selected, else the last
selected id's index when one is known. -/
def currentIndexUp (images : List GalleryImage) (selectedImage : Option GalleryImage)
    (lastSelectedId : Option String) : Int :=
  match selectedImage, lastSelectedId with
  | some img, _ => findIndex images img.id
  | none, some i => findIndex images i
  | none, none => -1

/-- `currentIndex` resolution of the thumbs-down branch: identical except
that the default (nothing selected, nothing remembered) is `0`. -/
def currentIndexDown (images : List GalleryImage) (selectedImage : Option GalleryImage)
    (lastSelectedId : Option String) : Int :=
  match selectedImage, lastSelectedId with
  | some img, _ => findIndex images img.id
  | none, some i => findIndex images i
  | none, none => 0

/-- One run of the gallery's thumb-navigation effect. Inputs: the current
snapshot's right hand, the dragged image (a drag suppresses navigation),
the selected image and the remembered last selected id. Output: the new
`NavState` and the `onImageSelect` event payload, if any. Mirrors the
source: missing hand or active drag clears the feedback flag; a cooldown
of 1000 ms since `lastThumbActionTime` gates everything else; thumbs up
selects the wrapped next index, thumbs down the wrapped previous one, and
each firing stamps the cooldown clock and scrolls the list. -/
def navStep (images : List GalleryImage) (st : NavState) (now : ℤ)
    (rightHand : Option HandData) (draggedImage : Option GalleryImage)
    (selectedImage : Option GalleryImage) (lastSelectedId : Option String) :
    NavState × Option GalleryImage :=
  match rightHand with
  | none => ({ st with isThumbScrolling := none }, none)
  | some hand =>
    if draggedImage.isSome then ({ st with isThumbScrolling := none }, none)
    else if now - st.lastThumbActionTime < 1000 then (st, none)
    else if hand.isThumbsUp then
      let currentIndex := currentIndexUp images selectedImage lastSelectedId
      let nextIndex : Int :=
        if currentIndex + 1 < images.length then currentIndex + 1 else 0
      ({ lastThumbActionTime := now
         scrollY := max 0 ((nextIndex : ℚ) * 140 - 100)
         isThumbScrolling := some ScrollDir.down },
       images.get? nextIndex.toNat)
    else if hand.isThumbsDown then
      let currentIndex := currentIndexDown images selectedImage lastSelectedId
      let prevIndex : Int :=
        if 0 ≤ currentIndex - 1 then currentIndex - 1 else (images.length : Int) - 1
      ({ lastThumbActionTime := now
         scrollY := max 0 ((prevIndex : ℚ) * 140 - 100)
         isThumbScrolling := some ScrollDir.up },
       images.get? prevIndex.toNat)
    else ({ st with isThumbScrolling := none }, none)

/-- A sequence of thumb-navigation ticks: threads `NavState` through
`navStep` and collects every emitted selection event in order. Each input
is `(now, rightHand, draggedImage, selectedImage, lastSelectedId)`. -/
def navRun (images : List GalleryImage) (st : NavState)
    (inputs : List (ℤ × Option HandData × Option GalleryImage ×
      Option GalleryImage × Option String)) : List GalleryImage :=
  match inputs with
  | [] => []
  | (now, rh, dr, sel, ls) :: rest =>
    let out := navStep images st now rh dr sel ls
    out.2.toList ++ navRun images out.1 rest

/-- State of the gallery's drag effects: the dragged image, the drag
position and the externally shared `isDragging` flag. -/
structure DragState where
  draggedImage : Option GalleryImage
  dragPosition : ℚ × ℚ
  isDragging : Bool
deriving DecidableEq

/-- One run of the gallery's drag-release effect (`W`, `H` = window size).
With no image being dragged or no right hand in the snapshot the effect
returns unchanged. Otherwise the drag position follows the mirrored pinch
position, and when the pinch has ended the image is released: dropped into
the main view (an `onImageSelect` event with the release position) when
released in the left 75 % of the screen, and the drag disengages. -/
def dragReleaseStep (W H : ℚ) (st : DragState) (rightHand : Option HandData) :
    DragState × Option (GalleryImage × ℚ × ℚ) :=
  match st.draggedImage, rightHand with
  | none, _ => (st, none)
  | some _, none => (st, none)
  | some img, some rh =>
    let pinchX := (1 - rh.pinchPosition.1) * W
    let pinchY := rh.pinchPosition.2 * H
    let st1 := { st with dragPosition := (pinchX, pinchY) }
    if rh.isPinching then (st1, none)
    else
      ({ st1 with draggedImage := none, isDragging := false },
       if pinchX < W * (75/100) then some (img, pinchX, pinchY) else none)

/-- State of the `ImageViewer` component: zoom/pan accumulators, the
right-hand move/dismiss machinery and the left-hand zoom/pan refs. -/
structure ViewerState where
  zoom : ℚ
  pan : ℚ × ℚ
  isDraggingWithRight : Bool
  isInDismissZone : Bool
  isDismissing : Bool
  rightPinchStart : Option (ℚ × ℚ)
  lastPinchY : ℚ
  lastPinchX : ℚ
  isPinchingRef : Bool
deriving DecidableEq

/-- One run of the viewer's right-hand move/dismiss effect. The returned
Bool reports whether a dismiss timer was scheduled this tick (the source's
`setIsDismissing(true)` + `setTimeout(..., 400)`). No image, no right hand
or an already dismissing viewer leave the state unchanged. While pinching
in the main view area (left 75 %): the first tick anchors
`rightPinchStart`, later ticks set the pan to the offset from the anchor
and track whether the pinch is in the dismiss zone (bottom 15 %:
`pinchY > 0.85 * H`). On the falling edge of the pinch: in the dismiss
zone the viewer starts dismissing, otherwise the pan snaps back to zero;
either way the anchor and flags clear. -/
def moveDismissStep (W H : ℚ) (st : ViewerState) (image : Option GalleryImage)
    (rightHand : Option HandData) : ViewerState × Bool :=
  match image, rightHand with
  | none, _ => (st, false)
  | some _, none => (st, false)
  | some _, some rh =>
    if st.isDismissing then (st, false)
    else
      let pinchX := (1 - rh.pinchPosition.1) * W
      let pinchY := rh.pinchPosition.2 * H
      let isInMainView := decide (pinchX < W * (75/100))
      if rh.isPinching && isInMainView then
        match st.rightPinchStart with
        | none =>
          ({ st with rightPinchStart := some (pinchX, pinchY),
                     isDraggingWithRight := true }, false)
        | some start =>
          ({ st with pan := (pinchX - start.1, pinchY - start.2),
                     isInDismissZone := decide (pinchY > H * (85/100)) }, false)
      else if !rh.isPinching && st.rightPinchStart.isSome then
        if st.isInDismissZone then
          ({ st with isDismissing := true, rightPinchStart := none,
                     isDraggingWithRight := false, isInDismissZone := false }, true)
        else
          ({ st with pan := (0, 0), rightPinchStart := none,
                     isDraggingWithRight := false, isInDismissZone := false }, false)
      else (st, false)

/-- The scheduled dismiss timer firing (the body of the source's
`setTimeout`): emits the single `onClose` event (the returned Bool) and
clears the dismissing flags. -/
def dismissTimerFire (st : ViewerState) : ViewerState × Bool :=
  ({ st with isDismissing := false, isInDismissZone := false }, true)

/-- One run of the viewer's left-hand zoom/pan effect. No image, no left
hand or an active right-hand drag leave the state unchanged. On the pinch
rising edge (latch `isPinchingRef` unset) the mirrored position is
captured as reference and nothing else changes. On later ticks while
pinching, with `deltaY`/`deltaX` the offsets from the reference: a
dominant vertical move (`|deltaY| > |deltaX| * 0.5`) zooms by
`-deltaY * 0.008` clamped to `[0.5, 4]`, and independently a horizontal
move past the dead zone (`|deltaX| > 5`) pans by `deltaX * 0.5` clamped to
`[-300, 300]`; the reference then advances. The falling edge just clears
the latch. -/
def zoomPanStep (W H : ℚ) (st : ViewerState) (image : Option GalleryImage)
    (leftHand : Option HandData) : ViewerState :=
  match image, leftHand with
  | none, _ => st
  | some _, none => st
  | some _, some lh =>
    if st.isDraggingWithRight then st
    else
      let pinchY := lh.pinchPosition.2 * H
      let pinchX := (1 - lh.pinchPosition.1) * W
      if lh.isPinching then
        if !st.isPinchingRef then
          { st with lastPinchY := pinchY, lastPinchX := pinchX, isPinchingRef := true }
        else
          let deltaY := pinchY - st.lastPinchY
          let deltaX := pinchX - st.lastPinchX
          let zoom1 :=
            if |deltaY| > |deltaX| * (1/2) then
              max (1/2) (min 4 (st.zoom + -deltaY * (8/1000)))
            else st.zoom
          let panX1 :=
            if |deltaX| > 5 then
              max (-300) (min 300 (st.pan.1 + deltaX * (1/2)))
            else st.pan.1
          { st with zoom := zoom1, pan := (panX1, st.pan.2),
                    lastPinchY := pinchY, lastPinchX := pinchX }
      else { st with isPinchingRef := false }

/-- The squared pinch distance is a sum of squares, hence nonnegative. -/
theorem pinchDistSq_nonneg (lm : Landmarks) : 0 ≤ pinchDistSq lm := by
  unfold pinchDistSq
  positivity

/-- C1: for every 21-landmark hand, `calculatePinch` computes the distance
as the Euclidean (x,y,z) distance between thumb tip (4) and index tip (8)
and returns: `isPinching` = (distance < 0.08); a strength
`max 0 (1 - distance / 0.08)` that equals `clamp (1 - distance / 0.08) 0 1`,
is `1` when the two tips coincide (with `isPinching = true` there) and is
`0` whenever the distance is at least `0.08` (with `isPinching = false`
there); and the (x,y) midpoint of the two tips as position. -/
theorem calculatePinch_spec (lm : Landmarks) :
    ((calculatePinch lm).isPinching = true ↔
       Real.sqrt ((pinchDistSq lm : ℝ)) < 8/100)
    ∧ max 0 (1 - Real.sqrt ((pinchDistSq lm : ℝ)) / (8/100))
        = min 1 (max 0 (1 - Real.sqrt ((pinchDistSq lm : ℝ)) / (8/100)))
    ∧ (lm 4 = lm 8 →
         (calculatePinch lm).isPinching = true ∧
         max 0 (1 - Real.sqrt ((pinchDistSq lm : ℝ)) / (8/100)) = 1)
    ∧ ((8/100 : ℝ) ≤ Real.sqrt ((pinchDistSq lm : ℝ)) →
         (calculatePinch lm).isPinching = false ∧
         max 0 (1 - Real.sqrt ((pinchDistSq lm : ℝ)) / (8/100)) = 0)
    ∧ (calculatePinch lm).position
        = (((lm 4).x + (lm 8).x) / 2, ((lm 4).y + (lm 8).y) / 2) := by
  have hq : (0 : ℚ) ≤ pinchDistSq lm := pinchDistSq_nonneg lm
  have hqR : (0 : ℝ) ≤ ((pinchDistSq lm : ℚ) : ℝ) := by exact_mod_cast hq
  have hbridge : (calculatePinch lm).isPinching = true ↔
      Real.sqrt ((pinchDistSq lm : ℝ)) < 8/100 := by
    rw [Real.sqrt_lt' (by norm_num : (0:ℝ) < 8/100)]
    simp only [calculatePinch, decide_eq_true_eq, PINCH_THRESHOLD]
    constructor
    · intro h
      calc ((pinchDistSq lm : ℚ) : ℝ) < (((8/100 : ℚ)^2 : ℚ) : ℝ) := by exact_mod_cast h
        _ = (8/100 : ℝ)^2 := by norm_num
    · intro h
      have : ((pinchDistSq lm : ℚ) : ℝ) < (((8/100 : ℚ)^2 : ℚ) : ℝ) := by
        calc ((pinchDistSq lm : ℚ) : ℝ) < (8/100 : ℝ)^2 := h
          _ = (((8/100 : ℚ)^2 : ℚ) : ℝ) := by norm_num
      exact_mod_cast this
  refine ⟨hbridge, ?_, ?_, ?_, rfl⟩
  · have hs : (0:ℝ) ≤ Real.sqrt ((pinchDistSq lm : ℝ)) := Real.sqrt_nonneg _
    have h1 : max 0 (1 - Real.sqrt ((pinchDistSq lm : ℝ)) / (8/100)) ≤ 1 := by
      have : (0:ℝ) ≤ Real.sqrt ((pinchDistSq lm : ℝ)) / (8/100) := by positivity
      have hv : 1 - Real.sqrt ((pinchDistSq lm : ℝ)) / (8/100) ≤ 1 := by linarith
      exact max_le (by norm_num) hv
    exact (min_eq_right h1).symm
  · intro h
    have hq0 : pinchDistSq lm = 0 := by
      unfold pinchDistSq
      rw [h]
      ring
    constructor
    · simp [calculatePinch, hq0, PINCH_THRESHOLD]
    · rw [hq0]
      simp [Real.sqrt_zero]
  · intro h
    have hsq : (8/100 : ℝ)^2 ≤ ((pinchDistSq lm : ℚ) : ℝ) :=
      (Real.le_sqrt' (by norm_num : (0:ℝ) < 8/100)).mp h
    constructor
    · have hft : ¬ (calculatePinch lm).isPinching = true := by
        rw [hbridge]
        exact not_lt.mpr h
      simpa using hft
    · have hdiv : (1:ℝ) ≤ Real.sqrt ((pinchDistSq lm : ℝ)) / (8/100) := by
        rw [le_div_iff₀ (by norm_num : (0:ℝ) < 8/100)]
        simpa using h
      have hv : 1 - Real.sqrt ((pinchDistSq lm : ℝ)) / (8/100) ≤ 0 := by linarith
      exact max_eq_left hv

/-- C2: for every 21-landmark hand, `isThumbsUp` holds exactly when all
four non-thumb tips are below their PIPs, the thumb is extended
(`|thumbTip.x - wrist.x| > 0.05` or `|thumbTip.y - wrist.y| > 0.1`) and
`thumbCMC.y - thumbTip.y > 0.06`; `isThumbsDown` is the same with
`thumbCMC.y - thumbTip.y < -0.06`; the two are never simultaneously true;
and when curled and extended hold but `|thumbCMC.y - thumbTip.y| ≤ 0.06`,
neither is true. -/
theorem detectThumbGesture_spec (lm : Landmarks) :
    ((detectThumbGesture lm).isThumbsUp = true ↔
       ((lm 8).y > (lm 6).y ∧ (lm 12).y > (lm 10).y ∧
        (lm 16).y > (lm 14).y ∧ (lm 20).y > (lm 18).y) ∧
       (|(lm 4).x - (lm 0).x| > 5/100 ∨ |(lm 4).y - (lm 0).y| > 1/10) ∧
       (lm 1).y - (lm 4).y > 6/100)
    ∧ ((detectThumbGesture lm).isThumbsDown = true ↔
       ((lm 8).y > (lm 6).y ∧ (lm 12).y > (lm 10).y ∧
        (lm 16).y > (lm 14).y ∧ (lm 20).y > (lm 18).y) ∧
       (|(lm 4).x - (lm 0).x| > 5/100 ∨ |(lm 4).y - (lm 0).y| > 1/10) ∧
       (lm 1).y - (lm 4).y < -(6/100))
    ∧ ¬((detectThumbGesture lm).isThumbsUp = true ∧
        (detectThumbGesture lm).isThumbsDown = true)
    ∧ (fingersCurled lm = true → thumbExtended lm = true →
        |(lm 1).y - (lm 4).y| ≤ 6/100 →
        (detectThumbGesture lm).isThumbsUp = false ∧
        (detectThumbGesture lm).isThumbsDown = false) := by
  have hup : (detectThumbGesture lm).isThumbsUp = true ↔
      ((lm 8).y > (lm 6).y ∧ (lm 12).y > (lm 10).y ∧
       (lm 16).y > (lm 14).y ∧ (lm 20).y > (lm 18).y) ∧
      (|(lm 4).x - (lm 0).x| > 5/100 ∨ |(lm 4).y - (lm 0).y| > 1/10) ∧
      (lm 1).y - (lm 4).y > 6/100 := by
    simp [detectThumbGesture, fingersCurled, thumbExtended, thumbVertical,
      THUMB_GESTURE_THRESHOLD, and_assoc]
  have hdown : (detectThumbGesture lm).isThumbsDown = true ↔
      ((lm 8).y > (lm 6).y ∧ (lm 12).y > (lm 10).y ∧
       (lm 16).y > (lm 14).y ∧ (lm 20).y > (lm 18).y) ∧
      (|(lm 4).x - (lm 0).x| > 5/100 ∨ |(lm 4).y - (lm 0).y| > 1/10) ∧
      (lm 1).y - (lm 4).y < -(6/100) := by
    simp [detectThumbGesture, fingersCurled, thumbExtended, thumbVertical,
      THUMB_GESTURE_THRESHOLD, and_assoc]
  refine ⟨hup, hdown, ?_, ?_⟩
  · rintro ⟨h1, h2⟩
    have a1 := (hup.mp h1).2.2
    have a2 := (hdown.mp h2).2.2
    linarith
  · intro hc he habs
    obtain ⟨hlo, hhi⟩ := abs_le.mp habs
    constructor
    · rw [Bool.eq_false_iff]
      intro h
      have := (hup.mp h).2.2
      linarith
    · rw [Bool.eq_false_iff]
      intro h
      have := (hdown.mp h).2.2
      linarith

/-- Folding `assignStep` over detections that all carry the source label
`'Left'` (all flipped to the right side) never touches the left slot. -/
theorem foldl_assignStep_fst (dets : List Detection)
    (acc : Option HandData × Option HandData)
    (h : ∀ d ∈ dets, d.label = Handedness.Left) :
    (dets.foldl assignStep acc).1 = acc.1 := by
  induction dets generalizing acc with
  | nil => rfl
  | cons d rest ih =>
    have hd : d.label = Handedness.Left := h d (by simp)
    rw [List.foldl_cons, ih _ (fun x hx => h x (by simp [hx]))]
    simp [assignStep, buildHandData, hd]

/-- Folding `assignStep` over detections none of which carries the source
label `'Left'` (all flipped to the left side) never touches the right
slot. -/
theorem foldl_assignStep_snd (dets : List Detection)
    (acc : Option HandData × Option HandData)
    (h : ∀ d ∈ dets, d.label ≠ Handedness.Left) :
    (dets.foldl assignStep acc).2 = acc.2 := by
  induction dets generalizing acc with
  | nil => rfl
  | cons d rest ih =>
    have hd : d.label = Handedness.Right := by
      cases hdl : d.label with
      | Left => exact absurd hdl (h d (by simp))
      | Right => rfl
    rw [List.foldl_cons, ih _ (fun x hx => h x (by simp [hx]))]
    simp [assignStep, buildHandData, hd]

/-- C8: the frame assembler drops — with no state change and no publish —
any callback arriving less than 16 ms after the last processed one, and
classifies and publishes any callback arriving 16 ms or later after it;
in particular after a processed callback at time `now`, a second callback
5 ms later is dropped while one 20 ms later publishes. -/
theorem processResults_throttle (last now : ℚ) (dets dets2 : List Detection) :
    (now - last < 16 → processResults last now dets = (last, none))
    ∧ (16 ≤ now - last →
        processResults last now dets = (now, some (assignHands dets)))
    ∧ processResults now (now + 5) dets2 = (now, none)
    ∧ processResults now (now + 20) dets2 = (now + 20, some (assignHands dets2)) := by
  refine ⟨?_, ?_, ?_, ?_⟩
  · intro h
    simp [processResults, h]
  · intro h
    rw [processResults, if_neg (not_lt.mpr (by linarith))]
  · rw [processResults, if_pos (by linarith)]
  · rw [processResults, if_neg (by push_neg; linarith)]

/-- C9: each detection of a processed callback is assigned to exactly one
side with its source label flipped: the flipped handedness is `Right`
exactly for source label `'Left'`; appending a detection to a callback
overwrites just the side its flipped label names (last-wins, so each side
holds at most one `HandData`); and a side that no detection maps to stays
`null`. -/
theorem assignHands_spec (d : Detection) (dets : List Detection) :
    ((buildHandData d).handedness =
      if d.label = Handedness.Left then Handedness.Right else Handedness.Left)
    ∧ (assignHands (dets ++ [d]) =
        if d.label = Handedness.Left
        then ((assignHands dets).1, some (buildHandData d))
        else (some (buildHandData d), (assignHands dets).2))
    ∧ ((∀ x ∈ dets, x.label = Handedness.Left) → (assignHands dets).1 = none)
    ∧ ((∀ x ∈ dets, x.label ≠ Handedness.Left) → (assignHands dets).2 = none) := by
  refine ⟨rfl, ?_, ?_, ?_⟩
  · unfold assignHands
    rw [List.foldl_append]
    cases hd : d.label with
    | Left => simp [assignStep, buildHandData, hd]
    | Right => simp [assignStep, buildHandData, hd]
  · intro h
    exact foldl_assignStep_fst dets (none, none) h
  · intro h
    exact foldl_assignStep_snd dets (none, none) h

/-- C3: in the thumb-navigation controller, while the cooldown is running
(less than 1000 ms since the last accepted gesture) no step emits a
selection event or moves the cooldown clock; the current index comes from
the selected image, else from the last externally-known selected id; a
thumbs-up observed out of cooldown (hand present, no drag) with current
index `c` selects the item at index `(c+1) % N` (wrapping from the last
index to 0), a thumbs-down the item at index `(c-1+N) % N`, and each
firing stamps the cooldown clock to `now`, producing exactly the one
event. -/
theorem navStep_spec (images : List GalleryImage) (st : NavState) (now : ℤ)
    (hand : HandData) (sel : Option GalleryImage) (ls : Option String) (c : ℕ) :
    (∀ (st2 : NavState) (now2 : ℤ) rh dr sel2 ls2,
      now2 - st2.lastThumbActionTime < 1000 →
      (navStep images st2 now2 rh dr sel2 ls2).2 = none ∧
      (navStep images st2 now2 rh dr sel2 ls2).1.lastThumbActionTime
        = st2.lastThumbActionTime)
    ∧ (∀ img ls2, currentIndexUp images (some img) ls2 = findIndex images img.id)
    ∧ (∀ i, currentIndexUp images none (some i) = findIndex images i)
    ∧ (∀ img ls2, currentIndexDown images (some img) ls2 = findIndex images img.id)
    ∧ (∀ i, currentIndexDown images none (some i) = findIndex images i)
    ∧ (1000 ≤ now - st.lastThumbActionTime → hand.isThumbsUp = true →
        currentIndexUp images sel ls = (c : ℤ) → c < images.length →
        (navStep images st now (some hand) none sel ls).2
          = images.get? ((c + 1) % images.length) ∧
        (navStep images st now (some hand) none sel ls).1.lastThumbActionTime = now)
    ∧ (1000 ≤ now - st.lastThumbActionTime → hand.isThumbsUp = false →
        hand.isThumbsDown = true →
        currentIndexDown images sel ls = (c : ℤ) → c < images.length →
        (navStep images st now (some hand) none sel ls).2
          = images.get? ((c + images.length - 1) % images.length) ∧
        (navStep images st now (some hand) none sel ls).1.lastThumbActionTime
          = now) := by
  refine ⟨?_, fun img ls2 => rfl, fun i => rfl, fun img ls2 => rfl, fun i => rfl,
    ?_, ?_⟩
  · intro st2 now2 rh dr sel2 ls2 hlt
    cases rh with
    | none => simp [navStep]
    | some h2 =>
      cases dr with
      | some dimg => simp [navStep]
      | none => simp [navStep, hlt]
  · intro h1000 hup hcur hcN
    have hnl : ¬(now - st.lastThumbActionTime < 1000) := not_lt.mpr h1000
    rcases Nat.lt_or_ge (c + 1) images.length with hlt | hge
    · have hz : (c : ℤ) + 1 < (images.length : ℤ) := by exact_mod_cast hlt
      have ht : ((c : ℤ) + 1).toNat = c + 1 := by omega
      have hm : (c + 1) % images.length = c + 1 := Nat.mod_eq_of_lt hlt
      simp [navStep, hnl, hup, hcur, hz, ht, hm]
    · have heq : c + 1 = images.length := by omega
      have hz : ¬((c : ℤ) + 1 < (images.length : ℤ)) := by
        push_neg
        exact_mod_cast Nat.le_of_eq heq.symm
      have hm : (c + 1) % images.length = 0 := by
        rw [heq, Nat.mod_self]
      simp [navStep, hnl, hup, hcur, hz, hm]
  · intro h1000 hup hdown hcur hcN
    have hnl : ¬(now - st.lastThumbActionTime < 1000) := not_lt.mpr h1000
    rcases Nat.eq_zero_or_pos c with hc0 | hcpos
    · subst hc0
      have hz : ¬((0 : ℤ) ≤ (0 : ℤ) - 1) := by omega
      have ht : ((images.length : ℤ) - 1).toNat = images.length - 1 := by omega
      have hm : (0 + images.length - 1) % images.length = images.length - 1 := by
        have h0 : 0 + images.length - 1 = images.length - 1 := by omega
        rw [h0]
        exact Nat.mod_eq_of_lt (by omega)
      simp only [navStep, hup, hdown, hcur, hnl] at *
      simp [hz, ht, hm, hnl, hup, hdown, navStep, hcur]
    · have hz : (0 : ℤ) ≤ (c : ℤ) - 1 := by omega
      have ht : ((c : ℤ) - 1).toNat = c - 1 := by omega
      have hm : (c + images.length - 1) % images.length = c - 1 := by
        have h1 : c + images.length - 1 = images.length + (c - 1) := by omega
        rw [h1, Nat.add_mod_left, Nat.mod_eq_of_lt (by omega)]
      simp [navStep, hnl, hup, hdown, hcur, hz, ht, hm]


/-- An index produced by `List.findIdx?` started at `s` lies in
`[s, s + length)`. -/
theorem findIdxq_bounds {α : Type} (p : α → Bool) :
    ∀ (l : List α) (s i : ℕ), List.findIdx? p l s = some i → s ≤ i ∧ i < s + l.length := by
  intro l
  induction l with
  | nil =>
    intro s i h
    simp [List.findIdx?] at h
  | cons a rest ih =>
    intro s i h
    rw [List.findIdx?_cons] at h
    by_cases ha : p a = true
    · rw [if_pos ha] at h
      simp only [Option.some.injEq] at h
      subst h
      simp
    · rw [if_neg ha] at h
      have := ih (s + 1) i h
      simp only [List.length_cons]
      omega

/-- `findIndex` is never below `-1` and stays below the list length. -/
theorem findIndex_bounds (images : List GalleryImage) (id : String) :
    -1 ≤ findIndex images id ∧ findIndex images id < (images.length : ℤ) := by
  unfold findIndex
  cases h : images.findIdx? (fun img => img.id == id) with
  | none =>
    refine ⟨by simp, ?_⟩
    simp only []
    omega
  | some i =>
    have hi := findIdxq_bounds (fun img => img.id == id) images 0 i h
    refine ⟨by simp; omega, ?_⟩
    simp only []
    omega

/-- The thumbs-up `currentIndex` resolution is at least `-1`. -/
theorem currentIndexUp_ge (images : List GalleryImage)
    (sel : Option GalleryImage) (ls : Option String) :
    -1 ≤ currentIndexUp images sel ls := by
  unfold currentIndexUp
  cases sel with
  | some img => exact (findIndex_bounds images img.id).1
  | none =>
    cases ls with
    | some i => exact (findIndex_bounds images i).1
    | none =>
      simp only []
      omega

/-- Cooldown gate of the thumb-navigation effect: any step taken less than
1000 ms after the last accepted gesture emits nothing and leaves the
cooldown clock alone. -/
theorem navStep_gate (images : List GalleryImage) (st : NavState) (now : ℤ)
    (rh : Option HandData) (dr : Option GalleryImage)
    (sel : Option GalleryImage) (ls : Option String)
    (hlt : now - st.lastThumbActionTime < 1000) :
    (navStep images st now rh dr sel ls).2 = none ∧
    (navStep images st now rh dr sel ls).1.lastThumbActionTime
      = st.lastThumbActionTime := by
  cases rh with
  | none => simp [navStep]
  | some h2 =>
    cases dr with
    | some dimg => simp [navStep]
    | none => simp [navStep, hlt]

/-- A thumbs-up step taken out of cooldown over a nonempty gallery fires:
it stamps the cooldown clock to `now` and emits one selection event. -/
theorem navStep_fire_up (images : List GalleryImage) (st : NavState) (now : ℤ)
    (hand : HandData) (sel : Option GalleryImage) (ls : Option String)
    (hne : images ≠ []) (hcool : 1000 ≤ now - st.lastThumbActionTime)
    (hup : hand.isThumbsUp = true) :
    (navStep images st now (some hand) none sel ls).1.lastThumbActionTime = now ∧
    ((navStep images st now (some hand) none sel ls).2).isSome = true := by
  have hN : 0 < images.length := List.length_pos.mpr hne
  have hci := currentIndexUp_ge images sel ls
  have hnl : ¬(now - st.lastThumbActionTime < 1000) := not_lt.mpr hcool
  by_cases h : currentIndexUp images sel ls + 1 < (images.length : ℤ)
  · have ht : (currentIndexUp images sel ls + 1).toNat < images.length := by omega
    refine ⟨by simp [navStep, hnl, hup, h], ?_⟩
    have hred : (navStep images st now (some hand) none sel ls).2
        = images.get? (currentIndexUp images sel ls + 1).toNat := by
      simp [navStep, hnl, hup, h]
    rw [hred, List.get?_eq_getElem?]
    simp [List.getElem?_eq_getElem, ht]
  · refine ⟨by simp [navStep, hnl, hup, h], ?_⟩
    have hred : (navStep images st now (some hand) none sel ls).2
        = images.get? (0 : ℤ).toNat := by
      simp [navStep, hnl, hup, h]
    rw [hred, List.get?_eq_getElem?]
    simp [List.getElem?_eq_getElem, hN]

/-- A run every tick of which falls inside the cooldown window that opened
at `t0` emits no event at all. -/
theorem navRun_cooldown (images : List GalleryImage) (t0 : ℤ)
    (inputs : List (ℤ × Option HandData × Option GalleryImage ×
      Option GalleryImage × Option String)) :
    ∀ st : NavState, st.lastThumbActionTime = t0 →
    (∀ p ∈ inputs, p.1 - t0 < 1000) → navRun images st inputs = [] := by
  induction inputs with
  | nil =>
    intro st h1 h2
    rfl
  | cons p rest ih =>
    intro st h1 h2
    obtain ⟨now, rh, dr, sel, ls⟩ := p
    have hlt : now - st.lastThumbActionTime < 1000 := by
      rw [h1]
      exact h2 (now, rh, dr, sel, ls) (List.mem_cons_self _ _)
    have hg := navStep_gate images st now rh dr sel ls hlt
    show (navStep images st now rh dr sel ls).2.toList
        ++ navRun images (navStep images st now rh dr sel ls).1 rest = []
    rw [hg.1,
      ih _ (by rw [hg.2, h1]) (fun q hq => h2 q (List.mem_cons_of_mem _ hq))]
    rfl

/-- C10: with nothing selected and no remembered last selection, the two
gestures use different default current indices (`-1` for next, `0` for
previous): a qualifying thumbs-up selects the first item (index 0) and a
qualifying thumbs-down selects the last item (index N-1). -/
theorem navStep_default_indices (images : List GalleryImage) (st : NavState)
    (now : ℤ) (hand : HandData) :
    (1000 ≤ now - st.lastThumbActionTime → hand.isThumbsUp = true →
      (navStep images st now (some hand) none none none).2 = images.get? 0)
    ∧ (1000 ≤ now - st.lastThumbActionTime → hand.isThumbsUp = false →
        hand.isThumbsDown = true →
      (navStep images st now (some hand) none none none).2
        = images.get? (images.length - 1)) := by
  constructor
  · intro hcool hup
    have hnl := not_lt.mpr hcool
    have h0 : (if (-1 + 1 : ℤ) < (images.length : ℤ) then (-1 + 1 : ℤ) else 0) = 0 := by
      split <;> omega
    simp [navStep, hnl, hup, currentIndexUp, h0]
  · intro hcool hup hdown
    have hnl := not_lt.mpr hcool
    have hz : ¬((0 : ℤ) ≤ 0 - 1) := by omega
    have ht : ((images.length : ℤ) - 1).toNat = images.length - 1 := by omega
    simp [navStep, hnl, hup, hdown, currentIndexDown, hz, ht]

/-- Landmark set with every coordinate zero (a placeholder: the
controllers read only the classifier output fields of a snapshot, which
the fixtures below set directly). -/
def zeroLm : Landmarks := fun _ => ⟨0, 0, 0⟩

/-- Fixture: a right-hand snapshot showing a thumbs-up. -/
def upHand : HandData where
  landmarks := zeroLm
  handedness := Handedness.Right
  isPinching := false
  pinchPosition := (0, 0)
  isThumbsUp := true
  isThumbsDown := false
  isOpenPalm := false

/-- Fixture: a right-hand snapshot showing no gesture at all. -/
def idleHand : HandData :=
  { upHand with isThumbsUp := false }

/-- Fixture run for the navigation cooldown: no gesture at t = 1990, then
a rising edge of thumbs-up at t = 2000 with the gesture held through
t = 2500 and t = 3000 (initial cooldown clock 0). -/
def navHoldInputs : List (ℤ × Option HandData × Option GalleryImage ×
    Option GalleryImage × Option String) :=
  [(1990, some idleHand, none, none, none),
   (2000, some upHand, none, none, none),
   (2500, some upHand, none, none, none),
   (3000, some upHand, none, none, none)]

/-- C4 counterexample: a single rising edge of thumbs-up (false at 1990,
true from 2000 on) held for 1000 ms emits TWO selection events, not
exactly one — the controller is gated by the cooldown clock alone, not by
the edge, so the gesture re-fires once the 1000 ms cooldown has elapsed. -/
theorem navRun_hold_twice :
    (navRun GALLERY_IMAGES ⟨0, 0, none⟩ navHoldInputs).length = 2 := by
  rfl

/-- The thumbs-down `currentIndex` resolution is at least `-1` and below
the length of a nonempty gallery. -/
theorem currentIndexDown_bounds (images : List GalleryImage)
    (sel : Option GalleryImage) (ls : Option String) (hN : 0 < images.length) :
    -1 ≤ currentIndexDown images sel ls ∧
    currentIndexDown images sel ls < (images.length : ℤ) := by
  unfold currentIndexDown
  cases sel with
  | some img => exact findIndex_bounds images img.id
  | none =>
    cases ls with
    | some i => exact findIndex_bounds images i
    | none =>
      constructor
      · simp only []
        omega
      · simp only []
        omega

/-- A thumbs-down step taken out of cooldown over a nonempty gallery
fires: it stamps the cooldown clock to `now` and emits one selection
event. -/
theorem navStep_fire_down (images : List GalleryImage) (st : NavState) (now : ℤ)
    (hand : HandData) (sel : Option GalleryImage) (ls : Option String)
    (hne : images ≠ []) (hcool : 1000 ≤ now - st.lastThumbActionTime)
    (hup : hand.isThumbsUp = false) (hdown : hand.isThumbsDown = true) :
    (navStep images st now (some hand) none sel ls).1.lastThumbActionTime = now ∧
    ((navStep images st now (some hand) none sel ls).2).isSome = true := by
  have hN : 0 < images.length := List.length_pos.mpr hne
  have hci := currentIndexDown_bounds images sel ls hN
  have hnl : ¬(now - st.lastThumbActionTime < 1000) := not_lt.mpr hcool
  by_cases h : (0 : ℤ) ≤ currentIndexDown images sel ls - 1
  · have ht : (currentIndexDown images sel ls - 1).toNat < images.length := by omega
    have ht2 : (currentIndexDown images sel ls).toNat - 1 < images.length := by omega
    refine ⟨by simp [navStep, hnl, hup, hdown, h], ?_⟩
    have hred : (navStep images st now (some hand) none sel ls).2
        = images.get? (currentIndexDown images sel ls - 1).toNat := by
      simp [navStep, hnl, hup, hdown, h]
    rw [hred, List.get?_eq_getElem?]
    simp [List.getElem?_eq_getElem, ht, ht2]
  · have ht : ((images.length : ℤ) - 1).toNat < images.length := by omega
    have ht2 : images.length - 1 < images.length := by omega
    refine ⟨by simp [navStep, hnl, hup, hdown, h], ?_⟩
    have hred : (navStep images st now (some hand) none sel ls).2
        = images.get? ((images.length : ℤ) - 1).toNat := by
      simp [navStep, hnl, hup, hdown, h]
    rw [hred, List.get?_eq_getElem?]
    simp [List.getElem?_eq_getElem, ht, ht2]

/-- C4 amended: the navigation controller emits at most one event per
1000 ms cooldown window, not one per rising edge: a qualifying thumb
gesture fired at `t0` over a nonempty gallery emits exactly one selection
event as long as every further tick arrives within 1000 ms of `t0`,
however long the gesture is held there; once 1000 ms elapse a still-held
gesture fires again (`navRun_hold_twice`). -/
theorem navRun_hold_amended (images : List GalleryImage) (st : NavState)
    (t0 : ℤ) (hand : HandData)
    (rest : List (ℤ × Option HandData × Option GalleryImage ×
      Option GalleryImage × Option String))
    (sel : Option GalleryImage) (ls : Option String)
    (hne : images ≠ []) (hcool : 1000 ≤ t0 - st.lastThumbActionTime)
    (hgest : hand.isThumbsUp = true ∨
      (hand.isThumbsUp = false ∧ hand.isThumbsDown = true))
    (hrest : ∀ p ∈ rest, p.1 - t0 < 1000) :
    (navRun images st ((t0, some hand, none, sel, ls) :: rest)).length = 1 := by
  have hf : (navStep images st t0 (some hand) none sel ls).1.lastThumbActionTime
        = t0 ∧
      ((navStep images st t0 (some hand) none sel ls).2).isSome = true := by
    rcases hgest with hup | ⟨hup, hdown⟩
    · exact navStep_fire_up images st t0 hand sel ls hne hcool hup
    · exact navStep_fire_down images st t0 hand sel ls hne hcool hup hdown
  show ((navStep images st t0 (some hand) none sel ls).2.toList
      ++ navRun images (navStep images st t0 (some hand) none sel ls).1 rest).length
      = 1
  rw [navRun_cooldown images t0 rest _ hf.1 hrest]
  cases hev : (navStep images st t0 (some hand) none sel ls).2 with
  | none =>
    rw [hev] at hf
    simp at hf
  | some img => rfl

/-- Concrete instance of the amended C4 property: a thumbs-up accepted at
t = 2000 and held through t = 2500 and t = 2900 (all within the 1000 ms
cooldown) emits exactly one selection event. -/
theorem navRun_hold_amended_witness :
    (navRun GALLERY_IMAGES ⟨0, 0, none⟩
      ((2000, some upHand, none, none, none) ::
        [((2500 : ℤ), some upHand, none, none, none),
         (2900, some upHand, none, none, none)])).length = 1 :=
  navRun_hold_amended GALLERY_IMAGES ⟨0, 0, none⟩ 2000 upHand
    [(2500, some upHand, none, none, none), (2900, some upHand, none, none, none)]
    none none (by simp [GALLERY_IMAGES]) (by decide) (Or.inl rfl)
    (by
      intro p hp
      rcases List.mem_cons.mp hp with h | hp
      · subst h
        decide
      · rcases List.mem_cons.mp hp with h | hp
        · subst h
          decide
        · simp at hp)

/-- Fixture: a drag of the first gallery image in progress. -/
def dragSt : DragState where
  draggedImage := some ⟨"1", "/gallery/image1.jpg", "codeforces"⟩
  dragPosition := (100, 100)
  isDragging := true

/-- C5 counterexample: with an image engaged by a pinch and the tracked
hand becoming null in the next snapshot, the drag-release effect returns
early — the dragged image stays set and `isDragging` stays true, so the
controller does NOT behave as if the pinch were released. -/
theorem dragReleaseStep_null_keeps_drag :
    (dragReleaseStep 1000 1000 dragSt none).1.draggedImage
        = some ⟨"1", "/gallery/image1.jpg", "codeforces"⟩ ∧
    (dragReleaseStep 1000 1000 dragSt none).1.isDragging = true ∧
    (dragReleaseStep 1000 1000 dragSt none).2 = none :=
  ⟨rfl, rfl, rfl⟩

/-- C5 amended: with a drag in progress, a null-hand snapshot makes no
state change at all (the drag stays engaged, nothing is emitted, until
the hand reappears); the drag disengages — dragged image cleared,
`isDragging` set false — exactly on a snapshot whose hand is present and
no longer pinching, while a pinching hand keeps the drag engaged. -/
theorem dragReleaseStep_spec (W H : ℚ) (st : DragState) (img : GalleryImage)
    (rh : HandData) :
    (st.draggedImage = some img →
      dragReleaseStep W H st none = (st, none))
    ∧ (st.draggedImage = some img → rh.isPinching = false →
      (dragReleaseStep W H st (some rh)).1.draggedImage = none ∧
      (dragReleaseStep W H st (some rh)).1.isDragging = false)
    ∧ (st.draggedImage = some img → rh.isPinching = true →
      (dragReleaseStep W H st (some rh)).1.draggedImage = some img ∧
      (dragReleaseStep W H st (some rh)).1.isDragging = st.isDragging ∧
      (dragReleaseStep W H st (some rh)).2 = none) := by
  refine ⟨?_, ?_, ?_⟩
  · intro h
    simp [dragReleaseStep, h]
  · intro h hp
    simp [dragReleaseStep, h, hp]
  · intro h hp
    simp [dragReleaseStep, h, hp]

/-- C6: on the falling edge of the right-hand pinch (hand present, not
pinching, anchor set, viewer not already dismissing): if the last known
position was in the dismiss zone (`isInDismissZone`, maintained while
dragging as `pinchY > 0.85 * H`), the viewer enters Dismissing and the
single scheduled timer firing emits exactly one close event; if it was
not, the pan resets to `(0, 0)` and nothing is scheduled. Conversely, a
close is scheduled only on a dismiss-zone falling edge, so no close event
is ever emitted for a drag released outside the zone. -/
theorem moveDismissStep_spec (W H : ℚ) (st : ViewerState) (img : GalleryImage)
    (rh : HandData) :
    (st.isDismissing = false → rh.isPinching = false →
     st.rightPinchStart.isSome = true → st.isInDismissZone = true →
      moveDismissStep W H st (some img) (some rh)
        = ({ st with isDismissing := true, rightPinchStart := none,
                     isDraggingWithRight := false, isInDismissZone := false }, true)
      ∧ dismissTimerFire (moveDismissStep W H st (some img) (some rh)).1
        = ({ st with isDismissing := false, rightPinchStart := none,
                     isDraggingWithRight := false, isInDismissZone := false }, true))
    ∧ (st.isDismissing = false → rh.isPinching = false →
       st.rightPinchStart.isSome = true → st.isInDismissZone = false →
        moveDismissStep W H st (some img) (some rh)
          = ({ st with pan := (0, 0), rightPinchStart := none,
                       isDraggingWithRight := false, isInDismissZone := false }, false))
    ∧ (∀ (image : Option GalleryImage) (rho : Option HandData),
        (moveDismissStep W H st image rho).2 = true →
        st.isDismissing = false ∧ st.isInDismissZone = true ∧
        st.rightPinchStart.isSome = true ∧
        ∃ rh2, rho = some rh2 ∧ rh2.isPinching = false) := by
  refine ⟨?_, ?_, ?_⟩
  · intro hd hp hs hz
    constructor
    · simp [moveDismissStep, hd, hp, hs, hz]
    · simp [moveDismissStep, dismissTimerFire, hd, hp, hs, hz]
  · intro hd hp hs hz
    simp [moveDismissStep, hd, hp, hs, hz]
  · intro image rho h
    match image, rho with
    | none, _ => simp [moveDismissStep] at h
    | some i2, none => simp [moveDismissStep] at h
    | some i2, some rh2 =>
      by_cases hd : st.isDismissing = true
      · simp [moveDismissStep, hd] at h
      · rw [Bool.not_eq_true] at hd
        by_cases hp : rh2.isPinching = true
        · by_cases hm : (1 - rh2.pinchPosition.1) * W < W * (75/100)
          · rcases hstart : st.rightPinchStart with _ | start <;>
              simp [moveDismissStep, hd, hp, hm, hstart] at h
          · simp [moveDismissStep, hd, hp, hm] at h
        · rw [Bool.not_eq_true] at hp
          by_cases hs : st.rightPinchStart.isSome = true
          · by_cases hz : st.isInDismissZone = true
            · exact ⟨hd, hz, hs, rh2, rfl, hp⟩
            · rw [Bool.not_eq_true] at hz
              simp [moveDismissStep, hd, hp, hs, hz] at h
          · simp [moveDismissStep, hd, hp, hs] at h

/-- C7: in the left-hand zoom/pan effect (image present, hand present,
no right-hand drag): on the pinch rising edge the current mirrored
position is captured as reference and neither zoom nor pan changes that
tick; on each later tick while pinching, with `deltaY`/`deltaX` the
offsets from the reference, a dominant vertical move
(`|deltaY| > 0.5 * |deltaX|`) sets
`zoom := clamp (zoom - deltaY * 0.008) 0.5 4`, independently a horizontal
move past the dead zone (`|deltaX| > 5`) sets
`pan.x := clamp (pan.x + deltaX * 0.5) (-300) 300` (both may happen in
the same tick), `pan.y` never changes, and the reference advances. -/
theorem zoomPanStep_spec (W H : ℚ) (st : ViewerState) (img : GalleryImage)
    (lh : HandData) :
    (st.isDraggingWithRight = false → lh.isPinching = true →
     st.isPinchingRef = false →
      zoomPanStep W H st (some img) (some lh)
        = { st with lastPinchY := lh.pinchPosition.2 * H,
                    lastPinchX := (1 - lh.pinchPosition.1) * W,
                    isPinchingRef := true }
      ∧ (zoomPanStep W H st (some img) (some lh)).zoom = st.zoom
      ∧ (zoomPanStep W H st (some img) (some lh)).pan = st.pan)
    ∧ (st.isDraggingWithRight = false → lh.isPinching = true →
       st.isPinchingRef = true →
        (zoomPanStep W H st (some img) (some lh)).zoom
          = (if |lh.pinchPosition.2 * H - st.lastPinchY|
                > |(1 - lh.pinchPosition.1) * W - st.lastPinchX| * (1/2)
             then max (1/2) (min 4
               (st.zoom - (lh.pinchPosition.2 * H - st.lastPinchY) * (8/1000)))
             else st.zoom)
        ∧ (zoomPanStep W H st (some img) (some lh)).pan.1
          = (if |(1 - lh.pinchPosition.1) * W - st.lastPinchX| > 5
             then max (-300) (min 300
               (st.pan.1 + ((1 - lh.pinchPosition.1) * W - st.lastPinchX) * (1/2)))
             else st.pan.1)
        ∧ (zoomPanStep W H st (some img) (some lh)).pan.2 = st.pan.2
        ∧ (zoomPanStep W H st (some img) (some lh)).lastPinchY
            = lh.pinchPosition.2 * H
        ∧ (zoomPanStep W H st (some img) (some lh)).lastPinchX
            = (1 - lh.pinchPosition.1) * W) := by
  constructor
  · intro hdr hp hr
    refine ⟨?_, ?_, ?_⟩ <;> simp [zoomPanStep, hdr, hp, hr]
  · intro hdr hp hr
    refine ⟨?_, ?_, ?_, ?_, ?_⟩ <;>
      (simp [zoomPanStep, hdr, hp, hr]; try ring_nf)
